import Mathlib

/-!
Shallow embedding of the audio preloading / playback scheduler and the
trial persistence layer of the Cantonese perception experiment:

* `public/experiment.js` — `SmartAudioPreloader` (preloadInitial,
  preloadAhead, getAudioBuffer, ensureNextTrialReady, loadAudio,
  getProgress, clearOldBuffers) and the per-trial fragment of
  `CantoneseExperiment.runExperiment` / `runTrial`;
* `src/index.ts` — `saveTrial`, against the D1 schema of
  `migrations/0001_init.sql` (`UNIQUE(session_id, trial_number)`).

Stimulus ids and decoded audio buffers are both natural numbers: a
buffer value is the token of the load operation that produced it, and
promise handles are tokens drawn from a fresh counter.  JS `Map`s are
association lists with key-replacing insertion; JS `Set`s are
duplicate-free lists.  An asynchronous fetch+decode is split into its
synchronous start (issuing the fetch and registering the in-flight
promise handle) and its settlement (the .then/.catch/.finally chain); an
`Outcome` oracle stands for the network and the decoder.
-/

namespace Cantonese

/-- JS `Map.set`: insert or replace the binding of key `k`. -/
def setKey (k v : Nat) (l : List (Nat × Nat)) : List (Nat × Nat) :=
  (k, v) :: l.filter (fun p => p.1 != k)

/-- JS `Map.delete`: remove the binding of key `k`. -/
def delKey (k : Nat) (l : List (Nat × Nat)) : List (Nat × Nat) :=
  l.filter (fun p => p.1 != k)

/-- JS `Set.add`: insert if absent. -/
def addSet (x : Nat) (l : List Nat) : List Nat :=
  if x ∈ l then l else x :: l

/-- State of `SmartAudioPreloader` (experiment.js lines 5-17).  The
fields `totalStimuli`, `bufferAhead`, `audioBuffers`,
`loadingPromises`, `loadedCount`, `failedLoads` and `loadTimes` are the
constructor fields of the source class.  `pending` is a ghost field
recording the genuinely in-flight fetch+decode operations as
(token, id) pairs, `nextToken` the fresh-token counter, and `fetchLog` a
ghost log of every fetch+decode ever issued, in order. -/
structure PreState where
  totalStimuli : Nat
  bufferAhead : Nat
  audioBuffers : List (Nat × Nat)
  loadingPromises : List (Nat × Nat)
  pending : List (Nat × Nat)
  loadedCount : Nat
  failedLoads : List Nat
  loadTimes : List Nat
  nextToken : Nat
  fetchLog : List Nat
deriving Repr, DecidableEq

/-- Freshly constructed preloader (`new SmartAudioPreloader(ctx, n, k)`). -/
def initState (totalStimuli bufferAhead : Nat) : PreState :=
  { totalStimuli := totalStimuli
    bufferAhead := bufferAhead
    audioBuffers := []
    loadingPromises := []
    pending := []
    loadedCount := 0
    failedLoads := []
    loadTimes := []
    nextToken := 0
    fetchLog := [] }

/-- Load failures at the preloader's interface: `PreviouslyFailed` is
the synchronous throw for an id already in `failedLoads`
(experiment.js lines 114-116); `LoadFailed` stands for a fetch or
decode rejection (the two are indistinguishable at this level). -/
inductive LoadErr
  | PreviouslyFailed
  | LoadFailed
deriving Repr, DecidableEq

/-- Result of an in-flight fetch+decode, supplied by the environment;
success carries the measured load time pushed onto `loadTimes`. -/
inductive Outcome
  | success (loadTime : Nat)
  | failure
deriving Repr, DecidableEq

def Outcome.isSuccess : Outcome → Bool
  | .success _ => true
  | .failure => false

/-- The two UI callbacks registered via `setPauseResumeCallbacks`:
`onPause` is the "entering wait" hook (receives the blocking stimulus
id), `onResume` the "wait ended" hook. -/
inductive CbEvent
  | onPause (stimulusId : Nat)
  | onResume
deriving Repr, DecidableEq

/-- Synchronous prefix of `loadAudio` (lines 113-149): the failed-set
guard, then issuing the fetch+decode and registering the new promise
handle in `loadingPromises` — replacing any existing entry for the same
id, since the source performs no in-flight check here.  Returns the
fresh handle. -/
def loadAudioStart (s : PreState) (stimulusId : Nat) : Except LoadErr (PreState × Nat) :=
  if stimulusId ∈ s.failedLoads then
    .error .PreviouslyFailed
  else
    let t := s.nextToken
    .ok ({ s with
            loadingPromises := setKey stimulusId t s.loadingPromises
            pending := (t, stimulusId) :: s.pending
            nextToken := t + 1
            fetchLog := s.fetchLog ++ [stimulusId] }, t)

/-- Success continuation of the pending load `(t, stimulusId)` (lines
129-139 plus the `.finally` at 144-146): cache the decoded buffer, bump
`loadedCount`, push the load time, drop the in-flight entry for the id
(the `.finally` deletes by key). -/
def settleSuccess (s : PreState) (t stimulusId loadTime : Nat) : PreState :=
  { s with
      pending := s.pending.filter (fun p => !(p.1 == t && p.2 == stimulusId))
      audioBuffers := setKey stimulusId t s.audioBuffers
      loadedCount := s.loadedCount + 1
      loadTimes := s.loadTimes ++ [loadTime]
      loadingPromises := delKey stimulusId s.loadingPromises }

/-- Failure continuation (the `.catch` at 140-143 plus the `.finally`):
add the id to `failedLoads`, drop the in-flight entry. -/
def settleFailure (s : PreState) (t stimulusId : Nat) : PreState :=
  { s with
      pending := s.pending.filter (fun p => !(p.1 == t && p.2 == stimulusId))
      failedLoads := addSet stimulusId s.failedLoads
      loadingPromises := delKey stimulusId s.loadingPromises }

/-- `getAudioBuffer` (lines 55-89).  The `oracle` gives the result of
the single load this call may await (whose settlement runs before the
awaiter resumes).  Returns the post state, the callback invocations in
order, and the buffer or error handed to the caller.  Note that on a
rejection of the awaited load the source never reaches its
`onResumeCallback` call, so no `onResume` event is emitted. -/
def getAudioBuffer (s : PreState) (stimulusId : Nat) (showPauseUI : Bool)
    (oracle : Outcome) : PreState × List CbEvent × Except LoadErr Nat :=
  match List.lookup stimulusId s.audioBuffers with
  | some buf => (s, [], .ok buf)
  | none =>
    match List.lookup stimulusId s.loadingPromises with
    | some t =>
      let pre := if showPauseUI then [CbEvent.onPause stimulusId] else []
      match oracle with
      | .success lt =>
          (settleSuccess s t stimulusId lt,
           pre ++ (if showPauseUI then [CbEvent.onResume] else []), .ok t)
      | .failure =>
          (settleFailure s t stimulusId, pre, .error .LoadFailed)
    | none =>
      let pre := if showPauseUI then [CbEvent.onPause stimulusId] else []
      match loadAudioStart s stimulusId with
      | .error e => (s, pre, .error e)
      | .ok (s1, t) =>
        match oracle with
        | .success lt =>
            (settleSuccess s1 t stimulusId lt,
             pre ++ (if showPauseUI then [CbEvent.onResume] else []), .ok t)
        | .failure =>
            (settleFailure s1 t stimulusId, pre, .error .LoadFailed)

/-- `ensureNextTrialReady` (lines 91-111): no-op past the end of the
sequence or when the buffer is already cached; otherwise fires
`onPause`, awaits `getAudioBuffer` with the pause UI suppressed, and
fires `onResume` only when that await returns normally. -/
def ensureNextTrialReady (s : PreState) (sequence : List Nat) (currentIndex : Nat)
    (oracle : Outcome) : PreState × List CbEvent × Except LoadErr Bool :=
  if currentIndex ≥ sequence.length then (s, [], .ok true)
  else
    let nextStimId := sequence.getD currentIndex 0
    if (List.lookup nextStimId s.audioBuffers).isSome then (s, [], .ok true)
    else
      match getAudioBuffer s nextStimId false oracle with
      | (s1, ns, .ok _) =>
          (s1, CbEvent.onPause nextStimId :: (ns ++ [CbEvent.onResume]), .ok true)
      | (s1, ns, .error e) =>
          (s1, CbEvent.onPause nextStimId :: ns, .error e)

/-- Synchronous start phase of a batch of `loadAudio` calls (as in
`initialBatch.map((stimId) => this.loadAudio(stimId))`, where every
call runs its synchronous prefix before any settlement): start each id
in order, pairing it with its fresh handle, or with `none` when
`loadAudio` threw synchronously (`PreviouslyFailed`). -/
def startBatch : PreState → List Nat → PreState × List (Nat × Option Nat)
  | s, [] => (s, [])
  | s, stimId :: rest =>
    match loadAudioStart s stimId with
    | .error _ =>
      ((startBatch s rest).1, (stimId, none) :: (startBatch s rest).2)
    | .ok (s1, t) =>
      ((startBatch s1 rest).1, (stimId, some t) :: (startBatch s1 rest).2)

/-- Settlement phase of a batch: each started load settles according to
the oracle (settlement order does not affect the final state for the
distinct ids the experiment passes).  The Boolean is `Promise.all`'s
verdict: `true` iff every call started and succeeded. -/
def settleBatch (oracle : Nat → Outcome) : PreState → List (Nat × Option Nat) → PreState × Bool
  | s, [] => (s, true)
  | s, (_, none) :: rest =>
    ((settleBatch oracle s rest).1, false)
  | s, (stimId, some t) :: rest =>
    match oracle stimId with
    | .success lt => settleBatch oracle (settleSuccess s t stimId lt) rest
    | .failure =>
      ((settleBatch oracle (settleFailure s t stimId) rest).1, false)

/-- `preloadInitial` (lines 24-40): starts `loadAudio` for the first
`bufferAhead` ids concurrently, awaits them all, and wraps any failure
in the aggregate startup error. -/
def preloadInitial (s : PreState) (sequence : List Nat) (oracle : Nat → Outcome) :
    PreState × Except String Unit :=
  let initialBatch := sequence.take s.bufferAhead
  let s1 := (startBatch s initialBatch).1
  let started := (startBatch s initialBatch).2
  if (settleBatch oracle s1 started).2 then ((settleBatch oracle s1 started).1, .ok ())
  else ((settleBatch oracle s1 started).1,
    .error "Could not load initial audio files. Please check your connection.")

/-- `preloadAhead` (lines 42-53): slice the window
`[currentTrialIndex + bufferAhead, min(start + bufferAhead, length))`,
filter out ids already cached or already in flight, and fire
`loadAudio` for the remainder without awaiting any settlement.  Returns
the post state and the list of ids for which `loadAudio` was invoked. -/
def preloadAhead (s : PreState) (sequence : List Nat) (currentTrialIndex : Nat) :
    PreState × List Nat :=
  let startIdx := currentTrialIndex + s.bufferAhead
  let endIdx := min (startIdx + s.bufferAhead) sequence.length
  let nextBatch := (sequence.drop startIdx).take (endIdx - startIdx)
  let toLoad := nextBatch.filter (fun stimId =>
    (List.lookup stimId s.audioBuffers).isNone &&
    (List.lookup stimId s.loadingPromises).isNone)
  if toLoad = [] then (s, [])
  else ((startBatch s toLoad).1, toLoad)

/-- Snapshot returned by `getProgress` (lines 157-166). -/
structure Progress where
  loaded : Nat
  total : Nat
  percentage : ℚ
  currentlyLoading : Nat
  failed : Nat
  avgLoadTime : ℚ

/-- `getProgress` (lines 157-166): pure read of the counters; the mean
load time guards against an empty `loadTimes` (JS `reduce` with no
initial value throws on an empty array). -/
def getProgress (s : PreState) : Progress :=
  { loaded := s.loadedCount
    total := s.totalStimuli
    percentage := (s.loadedCount : ℚ) / (s.totalStimuli : ℚ) * 100
    currentlyLoading := s.loadingPromises.length
    failed := s.failedLoads.length
    avgLoadTime :=
      if s.loadTimes.length > 0 then
        (s.loadTimes.map (fun t => (t : ℚ))).sum / (s.loadTimes.length : ℚ)
      else 0 }

/-- `clearOldBuffers` (lines 168-182): keep the ids at sequence
positions `[max(0, currentIndex - keepBehind), currentIndex +
bufferAhead + 3)` (truncated ℕ subtraction is JS's `Math.max(0, ·)`)
and delete every other cached buffer. -/
def clearOldBuffers (s : PreState) (sequence : List Nat) (currentIndex keepBehind : Nat) :
    PreState :=
  let lo := currentIndex - keepBehind
  let hi := currentIndex + s.bufferAhead + 3
  let keepStimuli := (sequence.drop lo).take (hi - lo)
  { s with audioBuffers := s.audioBuffers.filter (fun p => p.1 ∈ keepStimuli) }

/-- One interleaved background load activity: the synchronous start of a
`loadAudio` call (a rejected start changes nothing), or the settlement
of a pending fetch+decode.  Buffer eviction is not among these events:
`clearOldBuffers` runs synchronously in the trial loop, never between a
trial's readiness check and its playback. -/
inductive LoadEvent
  | start (stimulusId : Nat)
  | settleOk (t stimulusId loadTime : Nat)
  | settleFail (t stimulusId : Nat)
deriving Repr, DecidableEq

def applyEvent (s : PreState) : LoadEvent → PreState
  | .start stimulusId =>
    match loadAudioStart s stimulusId with
    | .error _ => s
    | .ok (s1, _) => s1
  | .settleOk t stimulusId lt => settleSuccess s t stimulusId lt
  | .settleFail t stimulusId => settleFailure s t stimulusId

def applyEvents (s : PreState) (es : List LoadEvent) : PreState :=
  es.foldl applyEvent s

/-- Preloader states reachable through the program's own entry points.
Every call site that starts a load first checks that the id is neither
cached nor in flight (`getAudioBuffer` lines 56-76 and `preloadAhead`
line 47 check both; `preloadInitial` runs on the fresh state with
distinct ids, where both hold vacuously), so starts carry those guards;
settlements are only of genuinely pending loads; `clearOldBuffers` may
run with any arguments. -/
inductive Reach : PreState → PreState → Prop
  | refl (s : PreState) : Reach s s
  | start {a s : PreState} (stimulusId : Nat)
      (h : Reach a s)
      (hnc : List.lookup stimulusId s.audioBuffers = none)
      (hnl : List.lookup stimulusId s.loadingPromises = none) :
      Reach a (applyEvent s (.start stimulusId))
  | settleOk {a s : PreState} (t stimulusId loadTime : Nat)
      (h : Reach a s)
      (hp : (t, stimulusId) ∈ s.pending) :
      Reach a (settleSuccess s t stimulusId loadTime)
  | settleFail {a s : PreState} (t stimulusId : Nat)
      (h : Reach a s)
      (hp : (t, stimulusId) ∈ s.pending) :
      Reach a (settleFailure s t stimulusId)
  | clear {a s : PreState} (sequence : List Nat) (currentIndex keepBehind : Nat)
      (h : Reach a s) :
      Reach a (clearOldBuffers s sequence currentIndex keepBehind)

/-- Effect of one preloader callback on `CantoneseExperiment.isPaused`:
`showPauseScreen` (line 270-292) sets it, `hidePauseScreen` (line
294-303) clears it. -/
def applyCb (isPaused : Bool) : CbEvent → Bool
  | .onPause _ => true
  | .onResume => false

def applyCbs (isPaused : Bool) (es : List CbEvent) : Bool :=
  es.foldl applyCb isPaused

/-- The fields of a trial result record relevant to the pause flag
(runExperiment lines 318-325). -/
structure TrialResult where
  trialNumber : Nat
  stimulusId : Nat
  wasPaused : Bool
deriving Repr, DecidableEq

/-- One iteration of the `runExperiment` loop (lines 308-335) up to the
construction of the trial result record: `ensureNextTrialReady`, then
the fire-and-forget `preloadAhead`, then `runTrial`'s
`getAudioBuffer` (line 344, with the pause UI enabled by default), then
the record with `wasPaused := this.isPaused` — the live flag at
record-construction time.  Returns the post states, the record, and a
ghost Boolean saying whether this trial's own readiness check or
playback fetch actually blocked (emitted at least one callback).
`none` when a load failure aborts the iteration before the record
exists. -/
def runTrialStep (s : PreState) (isPaused : Bool) (sequence : List Nat) (i : Nat)
    (oracle : Outcome) : Option (PreState × Bool × TrialResult × Bool) :=
  match ensureNextTrialReady s sequence i oracle with
  | (_, _, .error _) => none
  | (s1, ns1, .ok _) =>
    let p1 := applyCbs isPaused ns1
    let s2 := (preloadAhead s1 sequence i).1
    match getAudioBuffer s2 (sequence.getD i 0) true oracle with
    | (_, _, .error _) => none
    | (s3, ns2, .ok _) =>
      let p2 := applyCbs p1 ns2
      some (s3, p2,
        { trialNumber := i + 1
          stimulusId := sequence.getD i 0
          wasPaused := p2 },
        !ns1.isEmpty || !ns2.isEmpty)

/-- Payload of `POST /api/trial` (src/index.ts lines 8-22). -/
structure TrialData where
  trialNumber : Nat
  stimulusId : Nat
  character : String
  reactionTime : ℚ
  timestamp : Nat
  wasPaused : Bool
deriving Repr, DecidableEq

structure TrialSubmission where
  sessionId : String
  userAgent : String
  screenResolution : String
  trial : TrialData
deriving Repr, DecidableEq

/-- A row of the `sessions` table (migrations/0001_init.sql lines 5-14;
only the columns `saveTrial` touches). -/
structure SessionRow where
  id : String
  user_agent : String
  screen_resolution : String
  first_trial_at : Nat
  last_trial_at : Option Nat
deriving Repr, DecidableEq

/-- A row of the `trials` table (migrations/0001_init.sql lines 17-29);
`saved_at` is the server-side timestamp string bound at insert time. -/
structure TrialRow where
  session_id : String
  trial_number : Nat
  stimulus_id : Nat
  character : String
  reaction_time : ℚ
  timestamp : Nat
  was_paused : Bool
  saved_at : String
deriving Repr, DecidableEq

structure Database where
  sessions : List SessionRow
  trials : List TrialRow
deriving Repr, DecidableEq

/-- `INSERT OR IGNORE INTO sessions` keyed by the `id` primary key. -/
def insertOrIgnoreSession (tbl : List SessionRow) (row : SessionRow) : List SessionRow :=
  if tbl.any (fun r => r.id == row.id) then tbl else tbl ++ [row]

/-- Plain `INSERT INTO trials`: SQLite rejects the row when it violates
the `UNIQUE(session_id, trial_number)` constraint of the schema. -/
def insertTrial (tbl : List TrialRow) (row : TrialRow) : Except String (List TrialRow) :=
  if tbl.any (fun r => r.session_id == row.session_id && r.trial_number == row.trial_number) then
    .error "UNIQUE constraint failed: trials.session_id, trials.trial_number"
  else
    .ok (tbl ++ [row])

def updateLastTrial (tbl : List SessionRow) (sessionId : String) (ts : Nat) :
    List SessionRow :=
  tbl.map (fun r => if r.id == sessionId then { r with last_trial_at := some ts } else r)

/-- `saveTrial` (src/index.ts lines 88-132): session upsert via
`INSERT OR IGNORE`, then a plain `INSERT` of the trial row, then the
`last_trial_at` update; D1 runs the three statements without a
transaction, so on a trial-insert error the session insert persists and
the function rethrows. -/
def saveTrial (db : Database) (d : TrialSubmission) (savedAt : String) :
    Database × Except String Unit :=
  let sessionRow : SessionRow :=
    { id := d.sessionId
      user_agent := d.userAgent
      screen_resolution := d.screenResolution
      first_trial_at := d.trial.timestamp
      last_trial_at := none }
  let trialRow : TrialRow :=
    { session_id := d.sessionId
      trial_number := d.trial.trialNumber
      stimulus_id := d.trial.stimulusId
      character := d.trial.character
      reaction_time := d.trial.reactionTime
      timestamp := d.trial.timestamp
      was_paused := d.trial.wasPaused
      saved_at := savedAt }
  let db1 : Database := { db with sessions := insertOrIgnoreSession db.sessions sessionRow }
  match insertTrial db1.trials trialRow with
  | .error e => (db1, .error e)
  | .ok trials1 =>
    ({ db1 with
        trials := trials1
        sessions := updateLastTrial db1.sessions d.sessionId d.trial.timestamp },
     .ok ())

/-! ### Association-list and slice lemmas -/

theorem lookup_filter_key (p : Nat → Bool) (k : Nat) (l : List (Nat × Nat)) :
    List.lookup k (l.filter (fun e => p e.1)) = if p k then List.lookup k l else none := by
  induction l with
  | nil => cases hp : p k <;> simp [List.lookup]
  | cons a tl ih =>
    obtain ⟨x, y⟩ := a
    by_cases hk : k = x
    · subst hk
      cases hp : p k
      · simpa [List.lookup, hp] using ih
      · simp [List.lookup, hp]
    · have hbeq : (k == x) = false := by simpa using hk
      cases hp : p x
      · simpa [List.lookup, hp, hbeq] using ih
      · simpa [List.lookup, hp, hbeq] using ih

theorem lookup_setKey_self (k v : Nat) (l : List (Nat × Nat)) :
    List.lookup k (setKey k v l) = some v := by
  simp [setKey, List.lookup]

theorem lookup_setKey_ne {k' k : Nat} (v : Nat) (l : List (Nat × Nat)) (h : k' ≠ k) :
    List.lookup k' (setKey k v l) = List.lookup k' l := by
  have hbeq : (k' == k) = false := by simpa using h
  have hp := lookup_filter_key (fun x => x != k) k' l
  simp only [bne_iff_ne, ne_eq, h, not_false_eq_true, if_pos, if_true] at hp
  simpa [setKey, List.lookup, hbeq] using hp

theorem lookup_delKey_self (k : Nat) (l : List (Nat × Nat)) :
    List.lookup k (delKey k l) = none := by
  have hp := lookup_filter_key (fun x => x != k) k l
  simpa [delKey] using hp

theorem lookup_delKey_ne {k' k : Nat} (l : List (Nat × Nat)) (h : k' ≠ k) :
    List.lookup k' (delKey k l) = List.lookup k' l := by
  have hp := lookup_filter_key (fun x => x != k) k' l
  simpa [delKey, h] using hp

theorem lookup_filter_of_none (p : Nat → Bool) (k : Nat) (l : List (Nat × Nat))
    (h : List.lookup k l = none) :
    List.lookup k (l.filter (fun e => p e.1)) = none := by
  rw [lookup_filter_key]
  cases p k <;> simp [h]

/-- An absent key stays absent under any filtering. -/
theorem lookup_filter_of_none' (f : Nat × Nat → Bool) (k : Nat) (l : List (Nat × Nat))
    (h : List.lookup k l = none) : List.lookup k (l.filter f) = none := by
  induction l with
  | nil => simp [List.lookup]
  | cons a tl ih =>
    obtain ⟨x, y⟩ := a
    by_cases hk : k = x
    · subst hk
      simp [List.lookup] at h
    · have hbeq : (k == x) = false := by simpa using hk
      simp only [List.lookup, hbeq] at h
      cases hf : f (x, y)
      · simp only [List.filter, hf]
        exact ih h
      · simp only [List.filter, hf, List.lookup, hbeq]
        exact ih h

/-- Membership in the JS slice `sequence.slice(lo, lo + n)`, phrased by
positions of the original list. -/
theorem mem_slice_iff (l : List Nat) (lo n x : Nat) :
    x ∈ (l.drop lo).take n ↔
      ∃ j, lo ≤ j ∧ j < lo + n ∧ j < l.length ∧ l.getD j 0 = x := by
  constructor
  · intro hx
    obtain ⟨i, hi, hget⟩ := List.mem_iff_getElem.mp hx
    have hi2 : lo + i < l.length := by
      simp only [List.length_take, List.length_drop] at hi
      omega
    have hi3 : i < (l.drop lo).length := by
      simp only [List.length_drop]
      omega
    refine ⟨lo + i, by omega, ?_, hi2, ?_⟩
    · simp only [List.length_take, List.length_drop] at hi
      omega
    · have h1 : ((l.drop lo).take n)[i] = (l.drop lo)[i] := List.getElem_take _
      have h2 : (l.drop lo)[i] = l[lo + i] := by rw [List.getElem_drop]
      have h3 : l.getD (lo + i) 0 = l[lo + i] := by
        simp [List.getD_eq_getElem?_getD, List.getElem?_eq_getElem hi2]
      rw [h3, ← h2, ← h1, hget]
  · rintro ⟨j, hlo, hhi, hlen, hget⟩
    have hi : j - lo < ((l.drop lo).take n).length := by
      simp only [List.length_take, List.length_drop]
      omega
    have hd : j - lo < (l.drop lo).length := by
      simp only [List.length_drop]
      omega
    have hl : lo + (j - lo) < l.length := by omega
    refine List.mem_iff_getElem.mpr ⟨j - lo, hi, ?_⟩
    have h1 : ((l.drop lo).take n)[j - lo] = (l.drop lo)[j - lo] := List.getElem_take _
    have h2 : (l.drop lo)[j - lo] = l[lo + (j - lo)] := by rw [List.getElem_drop]
    have h3 : l.getD (lo + (j - lo)) 0 = l[lo + (j - lo)] := by
      simp [List.getD_eq_getElem?_getD, List.getElem?_eq_getElem hl]
    have h4 : lo + (j - lo) = j := by omega
    rw [h1, h2, ← h3, h4]
    exact hget

/-! ### Generic facts about the preloader operations -/

/-- A cache hit returns synchronously: no state change, no callbacks. -/
theorem getAudioBuffer_cache_hit {s : PreState} {stimulusId b : Nat}
    (h : List.lookup stimulusId s.audioBuffers = some b)
    (showPauseUI : Bool) (oracle : Outcome) :
    getAudioBuffer s stimulusId showPauseUI oracle = (s, [], .ok b) := by
  simp [getAudioBuffer, h]

/-- No background load activity (start or settlement) ever removes a
cached buffer; only `clearOldBuffers` does. -/
theorem applyEvent_cached {s : PreState} {stimulusId : Nat}
    (h : (List.lookup stimulusId s.audioBuffers).isSome) (e : LoadEvent) :
    (List.lookup stimulusId (applyEvent s e).audioBuffers).isSome := by
  cases e with
  | start j =>
    by_cases hc : j ∈ s.failedLoads
    · simpa [applyEvent, loadAudioStart, hc] using h
    · simpa [applyEvent, loadAudioStart, hc] using h
  | settleOk t j lt =>
    by_cases hj : stimulusId = j
    · subst hj
      simp only [applyEvent, settleSuccess]
      rw [lookup_setKey_self]
      rfl
    · simpa [applyEvent, settleSuccess, lookup_setKey_ne _ _ hj] using h
  | settleFail t j => simpa [applyEvent, settleFailure] using h

theorem applyEvents_cached {s : PreState} {stimulusId : Nat}
    (h : (List.lookup stimulusId s.audioBuffers).isSome) (es : List LoadEvent) :
    (List.lookup stimulusId (applyEvents s es).audioBuffers).isSome := by
  induction es generalizing s with
  | nil => exact h
  | cons e es ih => exact ih (applyEvent_cached h e)

/-- Whenever `getAudioBuffer` hands a buffer to its caller, that buffer
is the cache entry for the id in the post state: the success
continuation of an awaited load caches the buffer before the awaiter
resumes. -/
theorem getAudioBuffer_ok_cached {s : PreState} {stimulusId : Nat} {ui : Bool}
    {o : Outcome} {s1 : PreState} {ns : List CbEvent} {b : Nat}
    (h : getAudioBuffer s stimulusId ui o = (s1, ns, .ok b)) :
    List.lookup stimulusId s1.audioBuffers = some b := by
  simp only [getAudioBuffer] at h
  split at h
  · rename_i buf heq
    simp only [Prod.mk.injEq, Except.ok.injEq] at h
    obtain ⟨rfl, -, rfl⟩ := h
    exact heq
  · rename_i hnc
    split at h
    · rename_i t hin
      split at h
      · rename_i lt
        simp only [Prod.mk.injEq, Except.ok.injEq] at h
        obtain ⟨rfl, -, rfl⟩ := h
        simp [settleSuccess, lookup_setKey_self]
      · simp at h
    · rename_i hnl
      split at h
      · simp at h
      · rename_i sA t heq
        split at h
        · rename_i lt
          simp only [Prod.mk.injEq, Except.ok.injEq] at h
          obtain ⟨rfl, -, rfl⟩ := h
          simp [settleSuccess, lookup_setKey_self]
        · simp at h

/-- C3: for every trial position `i` the runner reaches (in bounds of
the sequence), when `ensureNextTrialReady` returns normally the buffer
for `sequence[i]` is present in the audio buffer cache; it stays cached
across any interleaved background load activity, so the playback-time
`getAudioBuffer` call in `runTrial` is a synchronous cache hit at the
moment playback starts.  A failed load is instead surfaced to the
caller as the returned error. -/
theorem ensureReady_buffer_cached (s : PreState) (sequence : List Nat) (i : Nat)
    (oracle : Outcome) (s1 : PreState) (ns : List CbEvent)
    (hi : i < sequence.length)
    (hrun : ensureNextTrialReady s sequence i oracle = (s1, ns, .ok true)) :
    (List.lookup (sequence.getD i 0) s1.audioBuffers).isSome ∧
    ∀ (es : List LoadEvent) (oracle2 : Outcome), ∃ b,
      List.lookup (sequence.getD i 0) (applyEvents s1 es).audioBuffers = some b ∧
      getAudioBuffer (applyEvents s1 es) (sequence.getD i 0) true oracle2
        = (applyEvents s1 es, [], .ok b) := by
  have hmain : (List.lookup (sequence.getD i 0) s1.audioBuffers).isSome := by
    simp only [ensureNextTrialReady] at hrun
    split at hrun
    · rename_i hge
      omega
    · split at hrun
      · rename_i hc
        simp only [Prod.mk.injEq] at hrun
        obtain ⟨rfl, -, -⟩ := hrun
        exact hc
      · split at hrun
        · rename_i sA nsA b heq
          simp only [Prod.mk.injEq] at hrun
          obtain ⟨rfl, -, -⟩ := hrun
          rw [getAudioBuffer_ok_cached heq]
          rfl
        · simp at hrun
  refine ⟨hmain, fun es oracle2 => ?_⟩
  have h2 := applyEvents_cached hmain es
  obtain ⟨b, hb⟩ := Option.isSome_iff_exists.mp h2
  exact ⟨b, hb, getAudioBuffer_cache_hit hb true oracle2⟩

/-- Concrete instance of the C3 theorem: a fresh preloader, sequence
`[4]`, position 0, emergency load succeeding. -/
theorem ensureReady_buffer_cached_witness :
    (List.lookup 4 ((ensureNextTrialReady (initState 75 3) [4] 0 (.success 5)).1).audioBuffers).isSome := by
  have h := ensureReady_buffer_cached (initState 75 3) [4] 0 (.success 5)
      (ensureNextTrialReady (initState 75 3) [4] 0 (.success 5)).1
      (ensureNextTrialReady (initState 75 3) [4] 0 (.success 5)).2.1
      (by decide) (by rfl)
  simpa using h.1

/-- A preloader state with a load for stimulus 5 in flight under handle
100: one fetch has been issued so far, and `loadingPromises` maps 5 to
that pending operation. -/
def inFlightState : PreState :=
  { totalStimuli := 75
    bufferAhead := 3
    audioBuffers := []
    loadingPromises := [(5, 100)]
    pending := [(100, 5)]
    loadedCount := 0
    failedLoads := []
    loadTimes := []
    nextToken := 101
    fetchLog := [5] }

/-- C1 counterexample: `loadAudio` performs no in-flight check.  Called
for stimulus 5 while handle 100 is still pending, it issues a second
fetch+decode (the fetch log grows to `[5, 5]`), registers the fresh
handle 101 over the old table entry, and returns the new handle — not
the pending operation's handle 100. -/
theorem loadAudio_dedup_counterexample :
    loadAudioStart inFlightState 5
      = .ok ({ inFlightState with
                loadingPromises := [(5, 101)]
                pending := [(101, 5), (100, 5)]
                nextToken := 102
                fetchLog := [5, 5] }, 101) ∧
    (101 : Nat) ≠ 100 := by
  exact ⟨rfl, by decide⟩

/-- C1 amended: `loadAudio` itself does not deduplicate — calling it
with a load already in flight starts a second fetch+decode and replaces
the in-flight handle (see the counterexample).  Deduplication is
enforced at the call sites instead: `getAudioBuffer` invoked while the
id is in flight issues no new fetch (the fetch log is unchanged) and
resolves with that pending operation's outcome — its handle on success,
its error on failure — and `preloadAhead` never selects an id that is
already in flight. -/
theorem loadAudio_dedup_amended (s : PreState) (stimulusId t : Nat) (ui : Bool)
    (sequence : List Nat) (ci : Nat)
    (hnc : List.lookup stimulusId s.audioBuffers = none)
    (hin : List.lookup stimulusId s.loadingPromises = some t) :
    ((getAudioBuffer s stimulusId ui .failure).1.fetchLog = s.fetchLog ∧
      (getAudioBuffer s stimulusId ui .failure).2.2 = .error .LoadFailed) ∧
    (∀ lt, (getAudioBuffer s stimulusId ui (.success lt)).1.fetchLog = s.fetchLog ∧
      (getAudioBuffer s stimulusId ui (.success lt)).2.2 = .ok t) ∧
    stimulusId ∉ (preloadAhead s sequence ci).2 := by
  refine ⟨?_, fun lt => ?_, fun hmem => ?_⟩
  · simp [getAudioBuffer, hnc, hin, settleFailure]
  · simp [getAudioBuffer, hnc, hin, settleSuccess]
  · simp only [preloadAhead] at hmem
    split at hmem
    · simp at hmem
    · have hp := List.of_mem_filter hmem
      simp [hin] at hp

/-- Concrete instance of the amended C1 theorem at `inFlightState`. -/
theorem loadAudio_dedup_amended_witness :
    (getAudioBuffer inFlightState 5 true .failure).1.fetchLog = inFlightState.fetchLog :=
  (loadAudio_dedup_amended inFlightState 5 100 true [] 0 rfl rfl).1.1

/-! ### Reachable-state invariant (failed ids) -/

/-- A failed id is never cached, never in the in-flight table, and has
no pending fetch+decode. -/
def FailedInv (s : PreState) : Prop :=
  ∀ stimId ∈ s.failedLoads,
    List.lookup stimId s.audioBuffers = none ∧
    List.lookup stimId s.loadingPromises = none ∧
    ∀ t, (t, stimId) ∉ s.pending

/-- Bookkeeping tying the in-flight table to the pending operations: a
pending load's id is not cached (loads are only started for uncached
ids), the table has an entry exactly for the pending ids, and at most
one load per id is pending. -/
def PendingInv (s : PreState) : Prop :=
  (∀ t stimId, (t, stimId) ∈ s.pending → List.lookup stimId s.audioBuffers = none) ∧
  (∀ stimId, (List.lookup stimId s.loadingPromises).isSome ↔ ∃ t, (t, stimId) ∈ s.pending) ∧
  (∀ stimId t1 t2, (t1, stimId) ∈ s.pending → (t2, stimId) ∈ s.pending → t1 = t2)

def Inv (s : PreState) : Prop := FailedInv s ∧ PendingInv s

theorem mem_settle_filter {pend : List (Nat × Nat)} {t stimId a b : Nat} :
    (a, b) ∈ pend.filter (fun p => !(p.1 == t && p.2 == stimId)) ↔
      ((a, b) ∈ pend ∧ ¬(a = t ∧ b = stimId)) := by
  simp only [List.mem_filter, Bool.not_eq_eq_eq_not, Bool.not_true, Bool.and_eq_false_imp,
    beq_eq_false_iff_ne, ne_eq, beq_iff_eq]
  tauto

theorem inv_start {s : PreState} {stimId : Nat} (h : Inv s)
    (hnc : List.lookup stimId s.audioBuffers = none)
    (hnl : List.lookup stimId s.loadingPromises = none) :
    Inv (applyEvent s (.start stimId)) := by
  have hF := h.1
  have hP1 := h.2.1
  have hP2 := h.2.2.1
  have hP3 := h.2.2.2
  by_cases hfail : stimId ∈ s.failedLoads
  · simpa [applyEvent, loadAudioStart, hfail] using h
  · have hred : applyEvent s (.start stimId)
        = { s with
              loadingPromises := setKey stimId s.nextToken s.loadingPromises
              pending := (s.nextToken, stimId) :: s.pending
              nextToken := s.nextToken + 1
              fetchLog := s.fetchLog ++ [stimId] } := by
      simp [applyEvent, loadAudioStart, hfail]
    rw [hred]
    refine ⟨?_, ?_, ?_, ?_⟩
    · intro j hj
      have hji : j ≠ stimId := fun he => hfail (he ▸ hj)
      obtain ⟨h1, h2, h3⟩ := hF j hj
      refine ⟨h1, by rw [lookup_setKey_ne _ _ hji]; exact h2, fun t hmem => ?_⟩
      rcases List.mem_cons.mp hmem with heq | htl
      · exact hji (congrArg Prod.snd heq)
      · exact h3 t htl
    · intro t j hmem
      rcases List.mem_cons.mp hmem with heq | htl
      · have : j = stimId := by injection heq with _ h2'
        exact this ▸ hnc
      · exact hP1 t j htl
    · intro j
      by_cases hj : j = stimId
      · subst hj
        rw [lookup_setKey_self]
        simp only [Option.isSome_some, true_iff]
        exact ⟨s.nextToken, List.mem_cons_self _ _⟩
      · rw [lookup_setKey_ne _ _ hj]
        rw [hP2 j]
        constructor
        · rintro ⟨t, ht⟩
          exact ⟨t, List.mem_cons_of_mem _ ht⟩
        · rintro ⟨t, ht⟩
          rcases List.mem_cons.mp ht with heq | htl
          · exact absurd (by injection heq with _ h2') hj
          · exact ⟨t, htl⟩
    · intro j t1 t2 h1 h2
      rcases List.mem_cons.mp h1 with he1 | ht1 <;>
        rcases List.mem_cons.mp h2 with he2 | ht2
      · injection he1 with ha1 _
        injection he2 with ha2 _
        rw [ha1, ha2]
      · exfalso
        have hj : j = stimId := by injection he1 with _ hb
        have : (List.lookup stimId s.loadingPromises).isSome :=
          (hP2 stimId).mpr ⟨t2, hj ▸ ht2⟩
        rw [hnl] at this
        exact Bool.false_ne_true this
      · exfalso
        have hj : j = stimId := by injection he2 with _ hb
        have : (List.lookup stimId s.loadingPromises).isSome :=
          (hP2 stimId).mpr ⟨t1, hj ▸ ht1⟩
        rw [hnl] at this
        exact Bool.false_ne_true this
      · exact hP3 j t1 t2 ht1 ht2

theorem inv_settleOk {s : PreState} {t stimId lt : Nat} (h : Inv s)
    (hp : (t, stimId) ∈ s.pending) : Inv (settleSuccess s t stimId lt) := by
  have hF := h.1
  have hP1 := h.2.1
  have hP2 := h.2.2.1
  have hP3 := h.2.2.2
  have hnotfail : stimId ∉ s.failedLoads := fun hf => (hF stimId hf).2.2 t hp
  refine ⟨?_, ?_, ?_, ?_⟩
  · intro j hj
    have hji : j ≠ stimId := fun he => hnotfail (he ▸ hj)
    obtain ⟨h1, h2, h3⟩ := hF j hj
    refine ⟨?_, ?_, fun t' hmem => ?_⟩
    · show List.lookup j (setKey stimId t s.audioBuffers) = none
      rw [lookup_setKey_ne _ _ hji]; exact h1
    · show List.lookup j (delKey stimId s.loadingPromises) = none
      rw [lookup_delKey_ne _ hji]; exact h2
    · exact h3 t' (mem_settle_filter.mp hmem).1
  · intro t' j hmem
    obtain ⟨hmem', hne⟩ := mem_settle_filter.mp hmem
    by_cases hj : j = stimId
    · subst hj
      exact absurd ⟨hP3 j t' t hmem' hp, rfl⟩ hne
    · show List.lookup j (setKey stimId t s.audioBuffers) = none
      rw [lookup_setKey_ne _ _ hj]; exact hP1 t' j hmem'
  · intro j
    by_cases hj : j = stimId
    · subst hj
      show (List.lookup j (delKey j s.loadingPromises)).isSome ↔ _
      rw [lookup_delKey_self]
      simp only [Option.isSome_none, Bool.false_eq_true, false_iff, not_exists]
      intro t' hmem
      obtain ⟨hmem', hne⟩ := mem_settle_filter.mp hmem
      exact hne ⟨hP3 j t' t hmem' hp, rfl⟩
    · show (List.lookup j (delKey stimId s.loadingPromises)).isSome ↔ _
      rw [lookup_delKey_ne _ hj, hP2 j]
      constructor
      · rintro ⟨t', ht'⟩
        exact ⟨t', mem_settle_filter.mpr ⟨ht', fun hc => hj hc.2⟩⟩
      · rintro ⟨t', ht'⟩
        exact ⟨t', (mem_settle_filter.mp ht').1⟩
  · intro j t1 t2 h1 h2
    exact hP3 j t1 t2 (mem_settle_filter.mp h1).1 (mem_settle_filter.mp h2).1

theorem inv_settleFail {s : PreState} {t stimId : Nat} (h : Inv s)
    (hp : (t, stimId) ∈ s.pending) : Inv (settleFailure s t stimId) := by
  have hF := h.1
  have hP1 := h.2.1
  have hP2 := h.2.2.1
  have hP3 := h.2.2.2
  have hnotfail : stimId ∉ s.failedLoads := fun hf => (hF stimId hf).2.2 t hp
  refine ⟨?_, ?_, ?_, ?_⟩
  · intro j hj
    have hj' : j = stimId ∨ j ∈ s.failedLoads := by
      simpa [settleFailure, addSet, hnotfail] using hj
    rcases hj' with rfl | hjold
    · refine ⟨hP1 t j hp, ?_, fun t' hmem => ?_⟩
      · show List.lookup j (delKey j s.loadingPromises) = none
        exact lookup_delKey_self j _
      · obtain ⟨hmem', hne⟩ := mem_settle_filter.mp hmem
        exact hne ⟨hP3 j t' t hmem' hp, rfl⟩
    · have hji : j ≠ stimId := fun he => hnotfail (he ▸ hjold)
      obtain ⟨h1, h2, h3⟩ := hF j hjold
      refine ⟨h1, ?_, fun t' hmem => ?_⟩
      · show List.lookup j (delKey stimId s.loadingPromises) = none
        rw [lookup_delKey_ne _ hji]; exact h2
      · exact h3 t' (mem_settle_filter.mp hmem).1
  · intro t' j hmem
    exact hP1 t' j (mem_settle_filter.mp hmem).1
  · intro j
    by_cases hj : j = stimId
    · subst hj
      show (List.lookup j (delKey j s.loadingPromises)).isSome ↔ _
      rw [lookup_delKey_self]
      simp only [Option.isSome_none, Bool.false_eq_true, false_iff, not_exists]
      intro t' hmem
      obtain ⟨hmem', hne⟩ := mem_settle_filter.mp hmem
      exact hne ⟨hP3 j t' t hmem' hp, rfl⟩
    · show (List.lookup j (delKey stimId s.loadingPromises)).isSome ↔ _
      rw [lookup_delKey_ne _ hj, hP2 j]
      constructor
      · rintro ⟨t', ht'⟩
        exact ⟨t', mem_settle_filter.mpr ⟨ht', fun hc => hj hc.2⟩⟩
      · rintro ⟨t', ht'⟩
        exact ⟨t', (mem_settle_filter.mp ht').1⟩
  · intro j t1 t2 h1 h2
    exact hP3 j t1 t2 (mem_settle_filter.mp h1).1 (mem_settle_filter.mp h2).1

theorem inv_clear {s : PreState} (h : Inv s) (sequence : List Nat)
    (currentIndex keepBehind : Nat) :
    Inv (clearOldBuffers s sequence currentIndex keepBehind) := by
  have hF := h.1
  have hP1 := h.2.1
  have hP2 := h.2.2.1
  have hP3 := h.2.2.2
  refine ⟨?_, ?_, hP2, hP3⟩
  · intro j hj
    obtain ⟨h1, h2, h3⟩ := hF j hj
    refine ⟨?_, h2, h3⟩
    simp only [clearOldBuffers]
    exact lookup_filter_of_none' _ j _ h1
  · intro t' j hmem
    simp only [clearOldBuffers]
    exact lookup_filter_of_none' _ j _ (hP1 t' j hmem)

theorem inv_init (total ba : Nat) : Inv (initState total ba) := by
  refine ⟨?_, ?_, ?_, ?_⟩ <;> simp [FailedInv, PendingInv, initState, List.lookup]

theorem inv_reach {a s : PreState} (ha : Inv a) (hr : Reach a s) : Inv s := by
  induction hr with
  | refl => exact ha
  | start stimId h hnc hnl ih => exact inv_start ih hnc hnl
  | settleOk t stimId lt h hp ih => exact inv_settleOk ih hp
  | settleFail t stimId h hp ih => exact inv_settleFail ih hp
  | clear sequence ci kb h ih => exact inv_clear ih sequence ci kb

/-- C6: in every preloader state reachable through the program's entry
points, once an id is in the failed set, a `loadAudio` call throws
`PreviouslyFailed` synchronously and a `getAudioBuffer` call reaches the
emergency branch (the id being neither cached nor in flight) and
propagates that same `PreviouslyFailed` error, both leaving the state —
in particular its fetch log — untouched: no network fetch is performed
for the id again. -/
theorem failed_blocks_reload (total ba : Nat) (s : PreState) (stimId : Nat)
    (hr : Reach (initState total ba) s) (hf : stimId ∈ s.failedLoads) :
    loadAudioStart s stimId = .error .PreviouslyFailed ∧
    ∀ (showPauseUI : Bool) (oracle : Outcome),
      getAudioBuffer s stimId showPauseUI oracle
        = (s, if showPauseUI then [CbEvent.onPause stimId] else [],
           .error .PreviouslyFailed) := by
  obtain ⟨hnc, hnl, -⟩ := (inv_reach (inv_init total ba) hr).1 stimId hf
  refine ⟨by simp [loadAudioStart, hf], fun ui o => ?_⟩
  simp [getAudioBuffer, hnc, hnl, loadAudioStart, hf]

/-- Concrete instance of the C6 theorem: stimulus 7's only load fails,
after which `loadAudio` rejects with `PreviouslyFailed`. -/
theorem failed_blocks_reload_witness :
    loadAudioStart (settleFailure (applyEvent (initState 75 3) (.start 7)) 0 7) 7
      = .error .PreviouslyFailed := by
  have hr : Reach (initState 75 3)
      (settleFailure (applyEvent (initState 75 3) (.start 7)) 0 7) :=
    Reach.settleFail 0 7 (Reach.start 7 (Reach.refl _) rfl rfl) (by decide)
  exact (failed_blocks_reload 75 3 _ 7 hr (by decide)).1

/-- C5 (code bug): when `getAudioBuffer` announces "entering wait"
(`onPause`) and the load it then awaits fails, the "wait ended"
(`onResume`) callback is never invoked before the failure propagates:
with stimulus 5 in flight and the awaited load failing, the emitted
callback list is exactly `[onPause 5]`, and likewise for
`ensureNextTrialReady` — so the waiting overlay is left up after a
mid-experiment load failure. -/
theorem waitEnded_skipped_on_failure :
    getAudioBuffer inFlightState 5 true .failure
      = (settleFailure inFlightState 100 5, [CbEvent.onPause 5], .error .LoadFailed) ∧
    (ensureNextTrialReady inFlightState [5] 0 .failure).2.1 = [CbEvent.onPause 5] ∧
    CbEvent.onResume ∉ (getAudioBuffer inFlightState 5 true .failure).2.1 ∧
    CbEvent.onResume ∉ (ensureNextTrialReady inFlightState [5] 0 .failure).2.1 := by
  exact ⟨rfl, rfl, by decide, by decide⟩

/-- C2 (code bug): the stored pause flag is the live `isPaused` value at
record-construction time, not whether this trial's own playback waited.
With stimulus 5 still in flight, trial 1's readiness check blocks (the
ghost flag in the fourth component is `true`), but `hidePauseScreen`
has already reset the live flag when the record is built, so the
recorded `wasPaused` is `false`. -/
theorem wasPaused_records_live_flag :
    runTrialStep inFlightState false [5] 0 (.success 4)
      = some (settleSuccess inFlightState 100 5 4, false,
          { trialNumber := 1, stimulusId := 5, wasPaused := false }, true) := by
  rfl

/-- The example trial submission used to exercise `saveTrial`. -/
def subEx : TrialSubmission :=
  { sessionId := "s1"
    userAgent := "ua"
    screenResolution := "800x600"
    trial :=
      { trialNumber := 1
        stimulusId := 7
        character := "ma"
        reactionTime := 123
        timestamp := 1000
        wasPaused := false } }

def emptyDb : Database := { sessions := [], trials := [] }

/-- C4 (code bug): the trial write is a plain `INSERT`, not an
idempotent upsert: the first submission succeeds and stores one row,
but resubmitting the identical payload violates
`UNIQUE(session_id, trial_number)` and the retry fails (the endpoint
answers 500) instead of succeeding.  No duplicate row is created. -/
theorem saveTrial_retry_fails :
    (saveTrial emptyDb subEx "t0").2 = .ok () ∧
    (saveTrial emptyDb subEx "t0").1.trials.length = 1 ∧
    (saveTrial (saveTrial emptyDb subEx "t0").1 subEx "t1").2
      = .error "UNIQUE constraint failed: trials.session_id, trials.trial_number" ∧
    (saveTrial (saveTrial emptyDb subEx "t0").1 subEx "t1").1.trials.length = 1 := by
  exact ⟨rfl, rfl, rfl, rfl⟩

/-- The cache after `clearOldBuffers`, as a function of the retained
slice. -/
theorem lookup_clear (s : PreState) (sequence : List Nat) (ci kb stimId : Nat) :
    List.lookup stimId (clearOldBuffers s sequence ci kb).audioBuffers
      = if stimId ∈ (sequence.drop (ci - kb)).take (ci + s.bufferAhead + 3 - (ci - kb))
        then List.lookup stimId s.audioBuffers else none := by
  simp only [clearOldBuffers]
  have h := lookup_filter_key
    (fun x => decide (x ∈ (sequence.drop (ci - kb)).take (ci + s.bufferAhead + 3 - (ci - kb))))
    stimId s.audioBuffers
  simpa using h

/-- C8: after `clearOldBuffers(sequence, currentIndex, keepBehind)` the
cache holds no id that occurs at no sequence position in
`[max(0, currentIndex - keepBehind), currentIndex + bufferAhead + 3)`,
and the cache entry of every id that does occur at a position in that
range is exactly what it was before the call (in particular every such
previously cached id is still cached). -/
theorem clearOldBuffers_spec (s : PreState) (sequence : List Nat)
    (currentIndex keepBehind stimId : Nat) :
    ((∀ j, j < sequence.length → currentIndex - keepBehind ≤ j →
        j < currentIndex + s.bufferAhead + 3 → sequence.getD j 0 ≠ stimId) →
      List.lookup stimId (clearOldBuffers s sequence currentIndex keepBehind).audioBuffers
        = none) ∧
    ((∃ j, j < sequence.length ∧ currentIndex - keepBehind ≤ j ∧
        j < currentIndex + s.bufferAhead + 3 ∧ sequence.getD j 0 = stimId) →
      List.lookup stimId (clearOldBuffers s sequence currentIndex keepBehind).audioBuffers
        = List.lookup stimId s.audioBuffers) := by
  have hmem := mem_slice_iff sequence (currentIndex - keepBehind)
    (currentIndex + s.bufferAhead + 3 - (currentIndex - keepBehind)) stimId
  rw [lookup_clear]
  constructor
  · intro hout
    rw [if_neg]
    intro hin
    obtain ⟨j, h1, h2, h3, h4⟩ := hmem.mp hin
    exact hout j h3 h1 (by omega) h4
  · rintro ⟨j, h1, h2, h3, h4⟩
    rw [if_pos]
    exact hmem.mpr ⟨j, h2, by omega, h1, h4⟩

/-- A preloader with ids 1-4 cached, used to instantiate the C8
theorem. -/
def cachedFourState : PreState :=
  { totalStimuli := 75
    bufferAhead := 3
    audioBuffers := [(1, 11), (2, 12), (3, 13), (4, 14)]
    loadingPromises := []
    pending := []
    loadedCount := 4
    failedLoads := []
    loadTimes := [2, 3, 4, 5]
    nextToken := 15
    fetchLog := [1, 2, 3, 4] }

/-- Concrete instance of the C8 theorem: with the identity sequence
1..10, current index 5, keep-behind 2 and window size 3, the retained
positions are [3, 11), so id 1 (only at position 0) is evicted while
id 4 (at position 3) keeps its cache entry. -/
theorem clearOldBuffers_spec_witness :
    List.lookup 1 (clearOldBuffers cachedFourState [1, 2, 3, 4, 5, 6, 7, 8, 9, 10] 5 2).audioBuffers
      = none ∧
    List.lookup 4 (clearOldBuffers cachedFourState [1, 2, 3, 4, 5, 6, 7, 8, 9, 10] 5 2).audioBuffers
      = List.lookup 4 cachedFourState.audioBuffers :=
  ⟨(clearOldBuffers_spec cachedFourState [1, 2, 3, 4, 5, 6, 7, 8, 9, 10] 5 2 1).1 (by decide),
   (clearOldBuffers_spec cachedFourState [1, 2, 3, 4, 5, 6, 7, 8, 9, 10] 5 2 4).2
     ⟨3, by decide, by decide, by decide, by decide⟩⟩

/-- The `.ok` result of `loadAudio`'s synchronous prefix for an id not
in the failed set. -/
theorem loadAudioStart_ok {s : PreState} {a : Nat} (ha : a ∉ s.failedLoads) :
    loadAudioStart s a = .ok ({ s with
        loadingPromises := setKey a s.nextToken s.loadingPromises
        pending := (s.nextToken, a) :: s.pending
        nextToken := s.nextToken + 1
        fetchLog := s.fetchLog ++ [a] }, s.nextToken) := by
  simp [loadAudioStart, ha]

theorem startBatch_cons_of_ok {s s1 : PreState} {a t : Nat} (tl : List Nat)
    (h : loadAudioStart s a = .ok (s1, t)) :
    startBatch s (a :: tl)
      = ((startBatch s1 tl).1, (a, some t) :: (startBatch s1 tl).2) := by
  simp [startBatch, h]

theorem startBatch_cons_of_error {s : PreState} {a : Nat} {e : LoadErr} (tl : List Nat)
    (h : loadAudioStart s a = .error e) :
    startBatch s (a :: tl)
      = ((startBatch s tl).1, (a, none) :: (startBatch s tl).2) := by
  simp [startBatch, h]

/-- Starting a batch of loads none of which is failed: the fetch log
grows by exactly the batch, and neither the cache nor the loaded
counter changes (nothing is awaited). -/
theorem startBatch_no_failed (s : PreState) (ids : List Nat)
    (h : ∀ j ∈ ids, j ∉ s.failedLoads) :
    (startBatch s ids).1.fetchLog = s.fetchLog ++ ids ∧
    (startBatch s ids).1.audioBuffers = s.audioBuffers ∧
    (startBatch s ids).1.loadedCount = s.loadedCount := by
  induction ids generalizing s with
  | nil => simp [startBatch]
  | cons a tl ih =>
    have ha : a ∉ s.failedLoads := h a (List.mem_cons_self a tl)
    rw [startBatch_cons_of_ok tl (loadAudioStart_ok ha)]
    have hih := ih { s with
        loadingPromises := setKey a s.nextToken s.loadingPromises
        pending := (s.nextToken, a) :: s.pending
        nextToken := s.nextToken + 1
        fetchLog := s.fetchLog ++ [a] }
      (fun j hj => h j (List.mem_cons_of_mem a hj))
    refine ⟨?_, hih.2.1, hih.2.2⟩
    rw [hih.1]
    simp

theorem startBatch_fst (s : PreState) (ids : List Nat) :
    ((startBatch s ids).2).map Prod.fst = ids := by
  induction ids generalizing s with
  | nil => simp [startBatch]
  | cons a tl ih =>
    cases hla : loadAudioStart s a with
    | error e =>
      rw [startBatch_cons_of_error tl hla]
      simp [ih]
    | ok p =>
      obtain ⟨s1, t⟩ := p
      rw [startBatch_cons_of_ok tl hla]
      simp [ih]

theorem startBatch_entries (s : PreState) (ids : List Nat)
    (hnf : ∀ j ∈ ids, j ∉ s.failedLoads) :
    ∀ p ∈ (startBatch s ids).2, ∃ t, p.2 = some t := by
  induction ids generalizing s with
  | nil => simp [startBatch]
  | cons a tl ih =>
    have ha : a ∉ s.failedLoads := hnf a (List.mem_cons_self a tl)
    rw [startBatch_cons_of_ok tl (loadAudioStart_ok ha)]
    intro p hp
    rcases List.mem_cons.mp hp with rfl | htl
    · exact ⟨s.nextToken, rfl⟩
    · exact ih { s with
          loadingPromises := setKey a s.nextToken s.loadingPromises
          pending := (s.nextToken, a) :: s.pending
          nextToken := s.nextToken + 1
          fetchLog := s.fetchLog ++ [a] }
        (fun j hj => hnf j (List.mem_cons_of_mem a hj)) p htl

/-- `preloadAhead` always returns the filtered window as its invocation
list (also when it is empty). -/
theorem preloadAhead_snd (s : PreState) (sequence : List Nat) (ci : Nat) :
    (preloadAhead s sequence ci).2
      = ((sequence.drop (ci + s.bufferAhead)).take
          (min (ci + s.bufferAhead + s.bufferAhead) sequence.length
            - (ci + s.bufferAhead))).filter
          (fun stimId => (List.lookup stimId s.audioBuffers).isNone &&
            (List.lookup stimId s.loadingPromises).isNone) := by
  simp only [preloadAhead]
  split
  · rename_i hemp
    exact hemp.symm
  · rfl

/-- The spec's worked scenario: window size 2, ids 3 and 1 already
cached by the initial load. -/
def scenarioState : PreState :=
  { totalStimuli := 8
    bufferAhead := 2
    audioBuffers := [(3, 0), (1, 1)]
    loadingPromises := []
    pending := []
    loadedCount := 2
    failedLoads := []
    loadTimes := [1, 1]
    nextToken := 2
    fetchLog := [3, 1] }

/-- C9: `preloadAhead` invokes `loadAudio` for exactly the ids occurring
at sequence positions `[currentIndex + bufferAhead,
min(currentIndex + 2*bufferAhead, length))` that are neither cached nor
in flight; it is a no-op when that filtered set is empty; when none of
the selected ids is in the failed set, the fetches started are exactly
that list, while the cache and the loaded counter are untouched
(nothing is awaited).  In the spec's scenario — sequence
[3,1,4,1,5,9,2,6], window size 2, ids 3 and 1 cached — only id 4 is
loaded. -/
theorem preloadAhead_spec (s : PreState) (sequence : List Nat) (ci : Nat) :
    (∀ stimId, stimId ∈ (preloadAhead s sequence ci).2 ↔
      ((∃ j, ci + s.bufferAhead ≤ j ∧
          j < min (ci + s.bufferAhead + s.bufferAhead) sequence.length ∧
          sequence.getD j 0 = stimId) ∧
        List.lookup stimId s.audioBuffers = none ∧
        List.lookup stimId s.loadingPromises = none)) ∧
    ((preloadAhead s sequence ci).2 = [] → (preloadAhead s sequence ci).1 = s) ∧
    ((∀ stimId ∈ (preloadAhead s sequence ci).2, stimId ∉ s.failedLoads) →
      (preloadAhead s sequence ci).1.fetchLog
          = s.fetchLog ++ (preloadAhead s sequence ci).2 ∧
      (preloadAhead s sequence ci).1.audioBuffers = s.audioBuffers ∧
      (preloadAhead s sequence ci).1.loadedCount = s.loadedCount) ∧
    (preloadAhead scenarioState [3, 1, 4, 1, 5, 9, 2, 6] 0).2 = [4] := by
  refine ⟨?_, ?_, ?_, by rfl⟩
  · intro stimId
    rw [preloadAhead_snd]
    simp only [List.mem_filter, Bool.and_eq_true, Option.isNone_iff_eq_none]
    rw [mem_slice_iff]
    constructor
    · rintro ⟨⟨j, h1, h2, h3, h4⟩, h5, h6⟩
      exact ⟨⟨j, h1, by omega, h4⟩, h5, h6⟩
    · rintro ⟨⟨j, h1, h2, h4⟩, h5, h6⟩
      refine ⟨⟨j, h1, by omega, by omega, h4⟩, h5, h6⟩
  · intro h2
    rw [preloadAhead_snd] at h2
    simp [preloadAhead, h2]
  · intro hnf
    rw [preloadAhead_snd] at hnf
    by_cases hemp : ((sequence.drop (ci + s.bufferAhead)).take
          (min (ci + s.bufferAhead + s.bufferAhead) sequence.length
            - (ci + s.bufferAhead))).filter
          (fun stimId => (List.lookup stimId s.audioBuffers).isNone &&
            (List.lookup stimId s.loadingPromises).isNone) = []
    · simp [preloadAhead, hemp]
    · have hred : preloadAhead s sequence ci
          = ((startBatch s (((sequence.drop (ci + s.bufferAhead)).take
              (min (ci + s.bufferAhead + s.bufferAhead) sequence.length
                - (ci + s.bufferAhead))).filter
              (fun stimId => (List.lookup stimId s.audioBuffers).isNone &&
                (List.lookup stimId s.loadingPromises).isNone))).1,
             ((sequence.drop (ci + s.bufferAhead)).take
              (min (ci + s.bufferAhead + s.bufferAhead) sequence.length
                - (ci + s.bufferAhead))).filter
              (fun stimId => (List.lookup stimId s.audioBuffers).isNone &&
                (List.lookup stimId s.loadingPromises).isNone)) := by
        simp [preloadAhead, hemp]
      rw [hred]
      exact startBatch_no_failed s _ hnf

/-- Concrete instance of the C9 theorem in the spec's scenario: the
single started fetch is for id 4. -/
theorem preloadAhead_spec_witness :
    (preloadAhead scenarioState [3, 1, 4, 1, 5, 9, 2, 6] 0).1.fetchLog
      = scenarioState.fetchLog ++ (preloadAhead scenarioState [3, 1, 4, 1, 5, 9, 2, 6] 0).2 :=
  ((preloadAhead_spec scenarioState [3, 1, 4, 1, 5, 9, 2, 6] 0).2.2.1 (by decide)).1

/-- A state in which stimulus 1 was loaded, evicted by
`clearOldBuffers`, and loaded again: two successful completions, one
cached entry, with `totalStimuli = 1`. -/
def reloadedState : PreState :=
  settleSuccess
    (applyEvent
      (clearOldBuffers (settleSuccess (applyEvent (initState 1 3) (.start 1)) 0 1 5) [2] 0 2)
      (.start 1))
    1 1 7

/-- C10: `loadedCount` counts successful load completions, not distinct
cached ids — every successful settlement increments it by exactly one,
including the re-load of an evicted id — so `progress().loaded` can
exceed the number of cached entries and the percentage can exceed 100;
and with no completed load, the mean load latency is 0 rather than a
division by zero. -/
theorem progress_counts_completions :
    (∀ (s : PreState) (t stimId lt : Nat),
      (settleSuccess s t stimId lt).loadedCount = s.loadedCount + 1 ∧
      (getProgress (settleSuccess s t stimId lt)).loaded = s.loadedCount + 1) ∧
    (reloadedState.loadedCount = 2 ∧ reloadedState.audioBuffers.length = 1 ∧
      reloadedState.loadedCount > reloadedState.audioBuffers.length ∧
      (getProgress reloadedState).percentage = 200) ∧
    (∀ s : PreState, s.loadTimes = [] → (getProgress s).avgLoadTime = 0) := by
  refine ⟨fun s t stimId lt => ⟨rfl, rfl⟩, ⟨rfl, rfl, by decide, ?_⟩, fun s h => ?_⟩
  · have h1 : reloadedState.loadedCount = 2 := rfl
    have h2 : reloadedState.totalStimuli = 1 := rfl
    simp [getProgress, h1, h2]
    norm_num
  · simp [getProgress, h]

/-- Concrete instance of the C10 theorem. -/
theorem progress_counts_completions_witness :
    (settleSuccess (initState 75 3) 0 9 4).loadedCount = (initState 75 3).loadedCount + 1 ∧
    (getProgress (initState 75 3)).avgLoadTime = 0 :=
  ⟨(progress_counts_completions.1 (initState 75 3) 0 9 4).1,
   progress_counts_completions.2.2 (initState 75 3) rfl⟩

theorem settleSuccess_cached {s : PreState} {j t b lt : Nat}
    (h : (List.lookup j s.audioBuffers).isSome) :
    (List.lookup j (settleSuccess s t b lt).audioBuffers).isSome := by
  by_cases hj : j = b
  · subst hj
    simp only [settleSuccess]
    rw [lookup_setKey_self]
    rfl
  · simp only [settleSuccess]
    rw [lookup_setKey_ne _ _ hj]
    exact h

/-- Settling a batch never removes a cached buffer. -/
theorem settleBatch_cached (oracle : Nat → Outcome) (st : List (Nat × Option Nat))
    (s : PreState) (j : Nat)
    (h : (List.lookup j s.audioBuffers).isSome) :
    (List.lookup j (settleBatch oracle s st).1.audioBuffers).isSome := by
  induction st generalizing s with
  | nil => exact h
  | cons p tl ih =>
    obtain ⟨b, ot⟩ := p
    cases ot with
    | none =>
      simp only [settleBatch]
      exact ih s h
    | some t =>
      cases ho : oracle b with
      | success lt =>
        simp only [settleBatch, ho]
        exact ih _ (settleSuccess_cached h)
      | failure =>
        simp only [settleBatch, ho]
        exact ih _ h

/-- Settlements issue no fetches. -/
theorem settleBatch_fetchLog (oracle : Nat → Outcome) (st : List (Nat × Option Nat))
    (s : PreState) :
    (settleBatch oracle s st).1.fetchLog = s.fetchLog := by
  induction st generalizing s with
  | nil => rfl
  | cons p tl ih =>
    obtain ⟨b, ot⟩ := p
    cases ot with
    | none => simpa [settleBatch] using ih s
    | some t =>
      cases ho : oracle b with
      | success lt => simpa [settleBatch, ho] using ih (settleSuccess s t b lt)
      | failure => simpa [settleBatch, ho] using ih (settleFailure s t b)

/-- `Promise.all` resolves when every started load settles
successfully, and then every batch id is cached. -/
theorem settleBatch_all_success (oracle : Nat → Outcome) (st : List (Nat × Option Nat))
    (s : PreState)
    (hsome : ∀ p ∈ st, ∃ t, p.2 = some t)
    (hsucc : ∀ p ∈ st, (oracle p.1).isSuccess = true) :
    (settleBatch oracle s st).2 = true ∧
    ∀ p ∈ st, (List.lookup p.1 (settleBatch oracle s st).1.audioBuffers).isSome := by
  induction st generalizing s with
  | nil => exact ⟨rfl, by simp⟩
  | cons q tl ih =>
    obtain ⟨b, ot⟩ := q
    obtain ⟨t, ht⟩ := hsome (b, ot) (List.mem_cons_self _ _)
    simp only at ht
    subst ht
    have hsb := hsucc (b, some t) (List.mem_cons_self _ _)
    cases ho : oracle b with
    | failure =>
      rw [show ((b, some t) : Nat × Option Nat).1 = b from rfl, ho] at hsb
      exact absurd hsb (by simp [Outcome.isSuccess])
    | success lt =>
      simp only [settleBatch, ho]
      have ihr := ih (settleSuccess s t b lt)
        (fun p hp => hsome p (List.mem_cons_of_mem _ hp))
        (fun p hp => hsucc p (List.mem_cons_of_mem _ hp))
      refine ⟨ihr.1, fun p hp => ?_⟩
      rcases List.mem_cons.mp hp with rfl | htl
      · refine settleBatch_cached oracle tl _ _ ?_
        simp only [settleSuccess]
        rw [lookup_setKey_self]
        rfl
      · exact ihr.2 p htl

/-- `Promise.all` rejects when any batch entry failed to start or its
load fails. -/
theorem settleBatch_has_failure (oracle : Nat → Outcome) (st : List (Nat × Option Nat))
    (s : PreState)
    (h : ∃ p ∈ st, p.2 = none ∨ (oracle p.1).isSuccess = false) :
    (settleBatch oracle s st).2 = false := by
  induction st generalizing s with
  | nil => simp at h
  | cons q tl ih =>
    obtain ⟨b, ot⟩ := q
    cases ot with
    | none => simp [settleBatch]
    | some t =>
      cases ho : oracle b with
      | failure => simp [settleBatch, ho]
      | success lt =>
        simp only [settleBatch, ho]
        obtain ⟨p, hp, hfail⟩ := h
        rcases List.mem_cons.mp hp with rfl | htl
        · rcases hfail with h1 | h2
          · simp at h1
          · rw [show ((b, some t) : Nat × Option Nat).1 = b from rfl, ho] at h2
            simp [Outcome.isSuccess] at h2
        · exact ih _ ⟨p, htl, hfail⟩

theorem preloadInitial_fst (s : PreState) (sequence : List Nat) (oracle : Nat → Outcome) :
    (preloadInitial s sequence oracle).1
      = (settleBatch oracle (startBatch s (sequence.take s.bufferAhead)).1
          (startBatch s (sequence.take s.bufferAhead)).2).1 := by
  simp only [preloadInitial]
  split <;> rfl

theorem preloadInitial_snd (s : PreState) (sequence : List Nat) (oracle : Nat → Outcome) :
    (preloadInitial s sequence oracle).2
      = if (settleBatch oracle (startBatch s (sequence.take s.bufferAhead)).1
            (startBatch s (sequence.take s.bufferAhead)).2).2
        then .ok ()
        else .error "Could not load initial audio files. Please check your connection." := by
  simp only [preloadInitial]
  split <;> simp [*]

/-- C7: `preloadInitial` starts loads concurrently for exactly the
first `bufferAhead` ids of the sequence (when none of them is already
failed, the fetch log grows by exactly that batch); when every one of
those loads succeeds it resolves successfully and afterwards the buffer
for every id of the window is cached, so `getAudioBuffer` for each of
them returns the cached buffer synchronously (no state change, no
callbacks); when any one of them fails, it fails as a whole with the
aggregate initial-load error. -/
theorem preloadInitial_spec (s : PreState) (sequence : List Nat) (oracle : Nat → Outcome)
    (hnf : ∀ j ∈ sequence.take s.bufferAhead, j ∉ s.failedLoads) :
    (preloadInitial s sequence oracle).1.fetchLog
        = s.fetchLog ++ sequence.take s.bufferAhead ∧
    ((∀ j ∈ sequence.take s.bufferAhead, (oracle j).isSuccess = true) →
      (preloadInitial s sequence oracle).2 = .ok () ∧
      ∀ j ∈ sequence.take s.bufferAhead, ∃ b,
        List.lookup j (preloadInitial s sequence oracle).1.audioBuffers = some b ∧
        ∀ (ui : Bool) (o2 : Outcome),
          getAudioBuffer (preloadInitial s sequence oracle).1 j ui o2
            = ((preloadInitial s sequence oracle).1, [], .ok b)) ∧
    ((∃ j ∈ sequence.take s.bufferAhead, (oracle j).isSuccess = false) →
      (preloadInitial s sequence oracle).2
        = .error "Could not load initial audio files. Please check your connection.") := by
  have hsome := startBatch_entries s (sequence.take s.bufferAhead) hnf
  have hfst := startBatch_fst s (sequence.take s.bufferAhead)
  refine ⟨?_, ?_, ?_⟩
  · rw [preloadInitial_fst, settleBatch_fetchLog]
    exact (startBatch_no_failed s _ hnf).1
  · intro hsucc
    have hsucc' : ∀ p ∈ (startBatch s (sequence.take s.bufferAhead)).2,
        (oracle p.1).isSuccess = true := by
      intro p hp
      refine hsucc p.1 ?_
      rw [← hfst]
      exact List.mem_map.mpr ⟨p, hp, rfl⟩
    have hall := settleBatch_all_success oracle
      (startBatch s (sequence.take s.bufferAhead)).2
      (startBatch s (sequence.take s.bufferAhead)).1 hsome hsucc'
    constructor
    · rw [preloadInitial_snd, hall.1]
      rfl
    · intro j hj
      rw [← hfst] at hj
      obtain ⟨p, hp, hpj⟩ := List.mem_map.mp hj
      have hcache := hall.2 p hp
      rw [hpj, ← preloadInitial_fst] at hcache
      obtain ⟨b, hb⟩ := Option.isSome_iff_exists.mp hcache
      exact ⟨b, hb, fun ui o2 => getAudioBuffer_cache_hit hb ui o2⟩
  · rintro ⟨j, hj, hjf⟩
    have hex : ∃ p ∈ (startBatch s (sequence.take s.bufferAhead)).2,
        p.2 = none ∨ (oracle p.1).isSuccess = false := by
      rw [← hfst] at hj
      obtain ⟨p, hp, hpj⟩ := List.mem_map.mp hj
      exact ⟨p, hp, Or.inr (hpj ▸ hjf)⟩
    rw [preloadInitial_snd, settleBatch_has_failure oracle _ _ hex]
    rfl

/-- Concrete instance of the C7 theorem: window [3, 1], both loads
succeed, `preloadInitial` resolves. -/
theorem preloadInitial_spec_witness :
    (preloadInitial (initState 75 2) [3, 1, 4] (fun _ => .success 1)).2 = .ok () :=
  ((preloadInitial_spec (initState 75 2) [3, 1, 4] (fun _ => .success 1)
    (by decide)).2.1 (by decide)).1

end Cantonese
